import Mathlib

/-!
Verification development for the color-palette extraction engine of the
pitch-deck builder (`src/utils/colorExtractor.ts`).

The TypeScript source is embedded shallowly:

* JS strings are Lean `String`s (operations work on `String.data`).
* JS integer-valued numbers are `Int`/`Nat`; the bitwise operators `>>`
  and `& 0xff` first convert through ToInt32, modelled by `toInt32`.
* `parseInt(s, 16)` is `parseInt16`: it parses the longest leading run of
  hex digits.  A string with no leading hex digit yields NaN in JS, but
  every use-site feeds the result to `>>` or `&`, whose ToInt32 step maps
  NaN to 0, so `parseInt16` returns 0 there directly.
* `getLuminance` and the saturation computed inside `getMostVibrant`
  return float64 in JS; they are modelled over `ℚ` with exact decimal
  literals.  Distinct exact values arising from 8-bit channels differ by
  at least 1/65025 (saturation) resp. 1/255000 (luminance), far above the
  float64 rounding error of the source expressions, so every strict
  comparison below agrees with the float computation.  Exact ties in
  luminance may round differently in float64; no property proved here
  depends on the order of luminance ties.
-/

namespace ColorExtractor

/-- Digit characters as produced by JS `Number.prototype.toString(16)`;
only applied to values below 16. -/
def hexDigitChar : Nat → Char
  | 0 => '0' | 1 => '1' | 2 => '2' | 3 => '3'
  | 4 => '4' | 5 => '5' | 6 => '6' | 7 => '7'
  | 8 => '8' | 9 => '9' | 10 => 'a' | 11 => 'b'
  | 12 => 'c' | 13 => 'd' | 14 => 'e' | _ => 'f'

/-- Digit-extraction loop for `natToHexList`, structurally recursive on
a fuel argument in the style of `Nat.toDigitsCore`; `fuel ≥ n + 1`
always suffices, so the fuel-exhausted branch is unreachable. -/
def natToHexAux : Nat → Nat → List Char → List Char
  | 0, _, acc => acc
  | fuel + 1, n, acc =>
    let acc' := hexDigitChar (n % 16) :: acc
    if n < 16 then acc' else natToHexAux fuel (n / 16) acc'

/-- `n.toString(16)` for a nonnegative integer: most significant digit
first, no leading zeros, `"0"` for 0. -/
def natToHexList (n : Nat) : List Char := natToHexAux (n + 1) n []

/-- `x.toString(16)` for an integer: JS prints a minus sign followed by
the digits of the absolute value. -/
def intToHexList (x : Int) : List Char :=
  if x < 0 then '-' :: natToHexList x.natAbs else natToHexList x.toNat

/-- The body of the `map` in `rgbToHex`: `hex.length === 1 ? '0' + hex : hex`. -/
def channelHex (x : Int) : List Char :=
  let hex := intToHexList x
  if hex.length = 1 then '0' :: hex else hex

/-- `rgbToHex(r, g, b)` from `colorExtractor.ts`: `'#'` followed by the
three channel strings joined.  Note the source performs no clamping. -/
def rgbToHex (r g b : Int) : String :=
  String.mk ('#' :: (channelHex r ++ channelHex g ++ channelHex b))

/-- `hex.replace('#', '')`: JS `replace` with a string pattern removes
only the first occurrence. -/
def removeFirstHash : List Char → List Char
  | [] => []
  | c :: cs => if c = '#' then cs else c :: removeFirstHash cs

/-- Value of a single hex digit as accepted by `parseInt(_, 16)`. -/
def hexDigitVal? (c : Char) : Option Nat :=
  if '0' ≤ c ∧ c ≤ '9' then some (c.toNat - '0'.toNat)
  else if 'a' ≤ c ∧ c ≤ 'f' then some (c.toNat - 'a'.toNat + 10)
  else if 'A' ≤ c ∧ c ≤ 'F' then some (c.toNat - 'A'.toNat + 10)
  else none

def parseHexAux : List Char → Nat → Nat
  | [], acc => acc
  | c :: cs, acc =>
    match hexDigitVal? c with
    | some v => parseHexAux cs (acc * 16 + v)
    | none => acc

/-- `parseInt(s, 16)`: longest leading run of hex digits (none of the
inputs in this file carry a sign, whitespace or a `0x` marker, and hex
digits never include `x`).  See the module comment for the NaN case. -/
def parseInt16 (s : List Char) : Nat := parseHexAux s 0

/-- JS ToInt32: reduce mod 2^32 into the signed range. -/
def toInt32 (n : Nat) : Int :=
  let m := n % 4294967296
  if m < 2147483648 then (m : Int) else (m : Int) - 4294967296

/-- JS signed right shift `n >> k` for a nonnegative `n` (arithmetic
shift of the ToInt32 image, i.e. floor division by 2^k). -/
def jsShr (n : Nat) (k : Nat) : Int := Int.fdiv (toInt32 n) (2 ^ k)

/-- JS `x & 0xff` on an int32 value: the low 8 bits of the two's
complement representation. -/
def jsAnd255 (x : Int) : Int := Int.emod x 256

/-- Channel extraction pattern shared by `getLuminance`, `adjustBrightness`
and `getMostVibrant`: `(rgb >> 16) & 0xff`, `(rgb >> 8) & 0xff`,
`(rgb >> 0) & 0xff` after `parseInt(hex.replace('#',''), 16)`. -/
def hexChannels (hex : String) : Int × Int × Int :=
  let rgb := parseInt16 (removeFirstHash hex.data)
  (jsAnd255 (jsShr rgb 16), jsAnd255 (jsShr rgb 8), jsAnd255 (jsShr rgb 0))

/-- A lowercase hexadecimal digit. -/
def isLowerHexDigit (c : Char) : Bool :=
  ('0' ≤ c && c ≤ '9') || ('a' ≤ c && c ≤ 'f')

/-- The spec's well-formedness condition on an encoded color: exactly 7
characters, a leading `#`, then 6 lowercase hex digits. -/
def isValidHexColor (s : String) : Bool :=
  match s.data with
  | '#' :: rest => rest.length == 6 && rest.all isLowerHexDigit
  | _ => false

/-- `getLuminance(hex)`: `(0.299*r + 0.587*g + 0.114*b) / 255` over the
extracted channels, with exact rationals in place of float64 (see the
module comment). -/
def getLuminance (hex : String) : ℚ :=
  let c := hexChannels hex
  (0.299 * (c.1 : ℚ) + 0.587 * (c.2.1 : ℚ) + 0.114 * (c.2.2 : ℚ)) / 255

/-- Integer luminance weight `299*r + 587*g + 114*b`, i.e.
`255000 * getLuminance hex`; used so that luminance comparisons are
computable integer comparisons (`lumWeight_le_iff`). -/
def lumWeight (hex : String) : Int :=
  let c := hexChannels hex
  299 * c.1 + 587 * c.2.1 + 114 * c.2.2

/-- Stable insertion of `x` (the earlier element) into an already sorted
list of later elements: `x` goes before the first element of equal or
larger luminance. -/
def insertByLum (x : String) : List String → List String
  | [] => [x]
  | y :: ys =>
    if lumWeight x ≤ lumWeight y then x :: y :: ys
    else y :: insertByLum x ys

/-- `[...hexColors].sort((a, b) => getLuminance(a) - getLuminance(b))`:
JS `sort` is stable and the comparator is a total preorder on the keys,
so its result is the unique stable sort, which insertion sort computes.
The comparator is the luminance order (`lumWeight_le_iff`). -/
def sortByLuminance : List String → List String
  | [] => []
  | x :: xs => insertByLum x (sortByLuminance xs)

/-- The `(max, max - min)` data of `getMostVibrant`'s loop body: the
saturation `max === 0 ? 0 : (max - min) / max` is the quotient
`.1 / .2` of this pair (`saturationOf`), and the pair `(0, 1)` encodes
the `max === 0` convention so the quotient is never division by zero. -/
def satPair (hex : String) : Int × Int :=
  let c := hexChannels hex
  let mx := max c.1 (max c.2.1 c.2.2)
  let mn := min c.1 (min c.2.1 c.2.2)
  if mx = 0 then (0, 1) else (mx - mn, mx)

/-- The saturation computed in the body of `getMostVibrant`'s `forEach`:
`max === 0 ? 0 : (max - min) / max` over the extracted channels. -/
def saturationOf (hex : String) : ℚ :=
  ((satPair hex).1 : ℚ) / ((satPair hex).2 : ℚ)

/-- `saturation > maxSaturation` as the cross-multiplied integer
comparison of the two saturation fractions; exact for the positive
denominators `satPair` produces (`satLt_iff`). -/
def satLt (p q : Int × Int) : Bool := p.1 * q.2 < q.1 * p.2

/-- One iteration of `getMostVibrant`'s `forEach`: state is
`(maxSaturation, vibrant)` with `maxSaturation` kept as a `satPair`
fraction, updated when `saturation > maxSaturation`. -/
def vibrantStep (st : (Int × Int) × String) (hex : String) :
    (Int × Int) × String :=
  let s := satPair hex
  if satLt st.1 s then (s, hex) else st

/-- `getMostVibrant(colors)`: `maxSaturation` starts at 0 (the fraction
`(0, 1)`) and `vibrant` at `colors[0]` (undefined — modelled `""` — on
an empty list, which the caller's length guard excludes), then a scan
over the whole list. -/
def getMostVibrant (colors : List String) : String :=
  (colors.foldl vibrantStep ((0, 1), colors.headD "")).2

/-- `Math.round(2.55 * percent)` for an integer `percent`: JS rounds
half toward positive infinity, so with exact rational arithmetic the
value is `⌊2.55*percent + 1/2⌋ = ⌊(51*percent + 10) / 20⌋`.  Float64
agrees at every percent exercised below (0, 20, −30), and the clamping
downstream makes the theorems below independent of the exact value. -/
def roundedAmt (percent : Int) : Int := Int.fdiv (51 * percent + 10) 20

/-- `adjustBrightness(hex, percent)`: parse, shift every channel by
`Math.round(2.55 * percent)`, clamp to [0, 255], re-encode.  Note the
`R` channel takes no `& 0xff` mask in the source. -/
def adjustBrightness (hex : String) (percent : Int) : String :=
  let num := parseInt16 (removeFirstHash hex.data)
  let amt := roundedAmt percent
  let R := min 255 (max 0 (jsShr num 16 + amt))
  let G := min 255 (max 0 (jsAnd255 (jsShr num 8) + amt))
  let B := min 255 (max 0 (jsAnd255 (jsShr num 0) + amt))
  rgbToHex R G B

/-- JS `x || y` where `x` is an optional string: `undefined` and `""`
are the only falsy values that can arise. -/
def jsOrString (x : Option String) (y : String) : String :=
  match x with
  | some s => if s = "" then y else s
  | none => y

/-- The five-role palette of `types.ts`. -/
structure ColorPalette where
  primary : String
  secondary : String
  accent : String
  dark : String
  light : String
deriving DecidableEq, Repr

/-- The failure `extractColors` signals when the sampler yields fewer
than 3 colors (`'Could not extract enough colors'`). -/
inductive ExtractError where
  | insufficientSamples
deriving DecidableEq, Repr

instance : DecidableEq (Except ExtractError ColorPalette) := fun a b =>
  match a, b with
  | .ok x, .ok y => decidable_of_iff (x = y) (by simp)
  | .error x, .error y => decidable_of_iff (x = y) (by simp)
  | .ok _, .error _ => isFalse (fun h => by cases h)
  | .error _, .ok _ => isFalse (fun h => by cases h)

/-- `palette.map(([r, g, b]) => rgbToHex(r, g, b))`. -/
def hexColorsOf (palette : List (Int × Int × Int)) : List String :=
  palette.map (fun t => rgbToHex t.1 t.2.1 t.2.2)

/-- The synchronous derivation core of `extractColors`, acting on the
sampler's output (`colorThief.getPalette(img, 6)`).  The image decode
and the sampler itself are external; `extractColors` rejects with
`insufficientSamples` when the guard `palette.length < 3` fires, and
otherwise resolves the five roles exactly as the source does. -/
def derivePalette (palette : List (Int × Int × Int)) :
    Except ExtractError ColorPalette :=
  if palette.length < 3 then .error .insufficientSamples
  else
    let hexColors := hexColorsOf palette
    let sortedByLuminance := sortByLuminance hexColors
    let primary := hexColors.headD ""
    let secondary := jsOrString hexColors[1]? (adjustBrightness primary 20)
    let accent := getMostVibrant hexColors
    let dark := adjustBrightness (sortedByLuminance.headD "") (-30)
    let light := sortedByLuminance.getLastD ""
    .ok ⟨primary, secondary, accent, dark, light⟩

/-! ### Encoding lemmas -/

lemma hexDigitVal?_hexDigitChar {d : Nat} (h : d < 16) :
    hexDigitVal? (hexDigitChar d) = some d := by
  interval_cases d <;> decide

lemma isLowerHexDigit_hexDigitChar {d : Nat} (h : d < 16) :
    isLowerHexDigit (hexDigitChar d) = true := by
  interval_cases d <;> decide

lemma natToHexAux_succ (fuel n : Nat) (acc : List Char) :
    natToHexAux (fuel + 1) n acc =
      if n < 16 then hexDigitChar (n % 16) :: acc
      else natToHexAux fuel (n / 16) (hexDigitChar (n % 16) :: acc) := by
  simp [natToHexAux]

lemma natToHexList_lt {n : Nat} (h : n < 16) :
    natToHexList n = [hexDigitChar n] := by
  unfold natToHexList
  rw [natToHexAux_succ, if_pos h, Nat.mod_eq_of_lt h]

lemma natToHexList_two {n : Nat} (h1 : 16 ≤ n) (h2 : n < 256) :
    natToHexList n = [hexDigitChar (n / 16), hexDigitChar (n % 16)] := by
  obtain ⟨m, rfl⟩ : ∃ m, n = m + 1 := ⟨n - 1, by omega⟩
  have hq : (m + 1) / 16 < 16 := by omega
  unfold natToHexList
  rw [natToHexAux_succ, if_neg (by omega), natToHexAux_succ, if_pos hq,
    Nat.mod_eq_of_lt hq]

lemma channelHex_ofNat {n : Nat} (h : n < 256) :
    channelHex (n : Int) = [hexDigitChar (n / 16), hexDigitChar (n % 16)] := by
  unfold channelHex intToHexList
  rw [if_neg (by omega : ¬((n : Int) < 0))]
  have ht : ((n : Int)).toNat = n := by omega
  rw [ht]
  by_cases h16 : n < 16
  · rw [natToHexList_lt h16]
    simp only [List.length_singleton, if_pos rfl]
    rw [Nat.div_eq_of_lt h16, Nat.mod_eq_of_lt h16]
    rfl
  · rw [natToHexList_two (by omega) h]
    simp

lemma channelHex_of_range {x : Int} (h0 : 0 ≤ x) (h1 : x ≤ 255) :
    channelHex x = [hexDigitChar (x.toNat / 16), hexDigitChar (x.toNat % 16)] := by
  obtain ⟨n, rfl⟩ := Int.eq_ofNat_of_zero_le h0
  rw [channelHex_ofNat (by omega)]
  simp

lemma rgbToHex_data (r g b : Int) :
    (rgbToHex r g b).data = '#' :: (channelHex r ++ channelHex g ++ channelHex b) :=
  rfl

lemma rgbToHex_ne_empty (r g b : Int) : rgbToHex r g b ≠ "" := by
  intro h
  have h2 := congrArg String.data h
  rw [rgbToHex_data] at h2
  simp at h2

lemma rgbToHex_valid {r g b : Int} (hr0 : 0 ≤ r) (hr1 : r ≤ 255)
    (hg0 : 0 ≤ g) (hg1 : g ≤ 255) (hb0 : 0 ≤ b) (hb1 : b ≤ 255) :
    isValidHexColor (rgbToHex r g b) = true := by
  unfold isValidHexColor
  rw [rgbToHex_data, channelHex_of_range hr0 hr1, channelHex_of_range hg0 hg1,
    channelHex_of_range hb0 hb1]
  have hr : r.toNat ≤ 255 := by omega
  have hg : g.toNat ≤ 255 := by omega
  have hb : b.toNat ≤ 255 := by omega
  simp [isLowerHexDigit_hexDigitChar, Nat.mod_lt, Nat.div_lt_iff_lt_mul,
    isLowerHexDigit_hexDigitChar (show r.toNat / 16 < 16 by omega),
    isLowerHexDigit_hexDigitChar (show r.toNat % 16 < 16 by omega),
    isLowerHexDigit_hexDigitChar (show g.toNat / 16 < 16 by omega),
    isLowerHexDigit_hexDigitChar (show g.toNat % 16 < 16 by omega),
    isLowerHexDigit_hexDigitChar (show b.toNat / 16 < 16 by omega),
    isLowerHexDigit_hexDigitChar (show b.toNat % 16 < 16 by omega)]

lemma rgbToHex_length {r g b : Int} (hr0 : 0 ≤ r) (hr1 : r ≤ 255)
    (hg0 : 0 ≤ g) (hg1 : g ≤ 255) (hb0 : 0 ≤ b) (hb1 : b ≤ 255) :
    (rgbToHex r g b).length = 7 := by
  have : (rgbToHex r g b).length = (rgbToHex r g b).data.length := rfl
  rw [this, rgbToHex_data, channelHex_of_range hr0 hr1,
    channelHex_of_range hg0 hg1, channelHex_of_range hb0 hb1]
  rfl

/-! ### Parsing lemmas -/

lemma removeFirstHash_cons_hash (cs : List Char) :
    removeFirstHash ('#' :: cs) = cs := by
  simp [removeFirstHash]

lemma parseHexAux_cons {c : Char} {v : Nat} (h : hexDigitVal? c = some v)
    (cs : List Char) (acc : Nat) :
    parseHexAux (c :: cs) acc = parseHexAux cs (acc * 16 + v) := by
  simp [parseHexAux, h]

lemma parse_rgbToHex (r g b : Nat) (hr : r < 256) (hg : g < 256) (hb : b < 256) :
    parseInt16 (removeFirstHash (rgbToHex (r : Int) (g : Int) (b : Int)).data) =
      r * 65536 + g * 256 + b := by
  rw [rgbToHex_data, removeFirstHash_cons_hash, channelHex_ofNat hr,
    channelHex_ofNat hg, channelHex_ofNat hb]
  unfold parseInt16
  simp only [List.cons_append, List.nil_append]
  rw [parseHexAux_cons (hexDigitVal?_hexDigitChar (show r / 16 < 16 by omega)),
    parseHexAux_cons (hexDigitVal?_hexDigitChar (show r % 16 < 16 by omega)),
    parseHexAux_cons (hexDigitVal?_hexDigitChar (show g / 16 < 16 by omega)),
    parseHexAux_cons (hexDigitVal?_hexDigitChar (show g % 16 < 16 by omega)),
    parseHexAux_cons (hexDigitVal?_hexDigitChar (show b / 16 < 16 by omega)),
    parseHexAux_cons (hexDigitVal?_hexDigitChar (show b % 16 < 16 by omega))]
  show (((((0 * 16 + r / 16) * 16 + r % 16) * 16 + g / 16) * 16 + g % 16) * 16
      + b / 16) * 16 + b % 16 = r * 65536 + g * 256 + b
  omega

lemma fdiv_ofNat (a b : Nat) :
    Int.fdiv (a : Int) (b : Int) = ((a / b : Nat) : Int) :=
  (Int.ofNat_fdiv a b).symm

lemma emod_ofNat (a b : Nat) :
    Int.emod (a : Int) (b : Int) = ((a % b : Nat) : Int) :=
  (Int.ofNat_emod a b).symm

lemma toInt32_of_lt {n : Nat} (h : n < 2147483648) : toInt32 n = (n : Int) := by
  simp [toInt32, Nat.mod_eq_of_lt (show n < 4294967296 by omega), h]

lemma jsShr_ofNat {n : Nat} (h : n < 2147483648) (k : Nat) :
    jsShr n k = ((n / 2 ^ k : Nat) : Int) := by
  unfold jsShr
  rw [toInt32_of_lt h, show ((2 : Int) ^ k) = ((2 ^ k : Nat) : Int) by push_cast; ring]
  exact fdiv_ofNat n (2 ^ k)

lemma jsAnd255_ofNat (m : Nat) : jsAnd255 (m : Int) = ((m % 256 : Nat) : Int) := by
  unfold jsAnd255
  exact emod_ofNat m 256

lemma hexChannels_rgbToHex (r g b : Nat) (hr : r < 256) (hg : g < 256)
    (hb : b < 256) :
    hexChannels (rgbToHex (r : Int) (g : Int) (b : Int)) =
      ((r : Int), (g : Int), (b : Int)) := by
  simp only [hexChannels]
  rw [parse_rgbToHex r g b hr hg hb]
  have hn : r * 65536 + g * 256 + b < 2147483648 := by omega
  rw [jsShr_ofNat hn 16, jsShr_ofNat hn 8, jsShr_ofNat hn 0,
    jsAnd255_ofNat, jsAnd255_ofNat, jsAnd255_ofNat]
  simp only [Prod.mk.injEq, Nat.cast_inj]
  norm_num
  refine ⟨by omega, by omega, by omega⟩

/-! ### Brightness adjustment lemmas -/

lemma adjustBrightness_eq_rgbToHex (s : String) (p : Int) :
    ∃ R G B : Int, 0 ≤ R ∧ R ≤ 255 ∧ 0 ≤ G ∧ G ≤ 255 ∧ 0 ≤ B ∧ B ≤ 255 ∧
      adjustBrightness s p = rgbToHex R G B := by
  refine ⟨min 255 (max 0 (jsShr (parseInt16 (removeFirstHash s.data)) 16 + roundedAmt p)),
    min 255 (max 0 (jsAnd255 (jsShr (parseInt16 (removeFirstHash s.data)) 8) + roundedAmt p)),
    min 255 (max 0 (jsAnd255 (jsShr (parseInt16 (removeFirstHash s.data)) 0) + roundedAmt p)),
    by omega, by omega, by omega, by omega, by omega, by omega, rfl⟩

lemma adjustBrightness_valid (s : String) (p : Int) :
    isValidHexColor (adjustBrightness s p) = true := by
  obtain ⟨R, G, B, h1, h2, h3, h4, h5, h6, he⟩ := adjustBrightness_eq_rgbToHex s p
  rw [he]
  exact rgbToHex_valid h1 h2 h3 h4 h5 h6

lemma adjustBrightness_zero (r g b : Nat) (hr : r < 256) (hg : g < 256)
    (hb : b < 256) :
    adjustBrightness (rgbToHex (r : Int) (g : Int) (b : Int)) 0 =
      rgbToHex (r : Int) (g : Int) (b : Int) := by
  simp only [adjustBrightness]
  rw [parse_rgbToHex r g b hr hg hb]
  have hn : r * 65536 + g * 256 + b < 2147483648 := by omega
  rw [jsShr_ofNat hn 16, jsShr_ofNat hn 8, jsShr_ofNat hn 0,
    jsAnd255_ofNat, jsAnd255_ofNat]
  rw [show roundedAmt 0 = 0 by decide]
  have e16 : (2 : Nat) ^ 16 = 65536 := by norm_num
  have e8 : (2 : Nat) ^ 8 = 256 := by norm_num
  have e0 : (2 : Nat) ^ 0 = 1 := by norm_num
  rw [e16, e8, e0]
  have d16 : (r * 65536 + g * 256 + b) / 65536 = r := by omega
  have d8 : (r * 65536 + g * 256 + b) / 256 % 256 = g := by omega
  have d0 : (r * 65536 + g * 256 + b) / 1 % 256 = b := by omega
  rw [d16, d8, d0]
  have m1 : min 255 (max 0 ((r : Int) + 0)) = (r : Int) := by omega
  have m2 : min 255 (max 0 ((g : Int) + 0)) = (g : Int) := by omega
  have m3 : min 255 (max 0 ((b : Int) + 0)) = (b : Int) := by omega
  rw [m1, m2, m3]

/-! ### Sorting lemmas -/

lemma mem_insertByLum {a x : String} {l : List String} :
    a ∈ insertByLum x l ↔ a = x ∨ a ∈ l := by
  induction l with
  | nil => simp [insertByLum]
  | cons y ys ih =>
    simp only [insertByLum]
    split
    · simp [List.mem_cons]
    · simp [List.mem_cons, ih]
      tauto

lemma mem_sortByLuminance {a : String} {l : List String} :
    a ∈ sortByLuminance l ↔ a ∈ l := by
  induction l with
  | nil => simp [sortByLuminance]
  | cons y ys ih => simp [sortByLuminance, mem_insertByLum, ih]

lemma length_insertByLum (x : String) (l : List String) :
    (insertByLum x l).length = l.length + 1 := by
  induction l with
  | nil => rfl
  | cons y ys ih =>
    simp only [insertByLum]
    split
    · rfl
    · simp [ih]

lemma length_sortByLuminance (l : List String) :
    (sortByLuminance l).length = l.length := by
  induction l with
  | nil => rfl
  | cons y ys ih => simp [sortByLuminance, length_insertByLum, ih]

lemma getLastD_mem : ∀ (l : List String) (d : String), l ≠ [] → l.getLastD d ∈ l
  | [], _, h => absurd rfl h
  | [x], d, _ => by simp [List.getLastD]
  | x :: y :: ys, d, _ => by
    have := getLastD_mem (y :: ys) x (by simp)
    simp only [List.getLastD]
    exact List.mem_cons_of_mem x this

/-! ### Saturation lemmas -/

lemma jsAnd255_nonneg (x : Int) : 0 ≤ jsAnd255 x :=
  Int.emod_nonneg x (by norm_num)

lemma jsAnd255_lt (x : Int) : jsAnd255 x < 256 :=
  Int.emod_lt_of_pos x (by norm_num)

lemma hexChannels_bounds (s : String) :
    (0 ≤ (hexChannels s).1 ∧ (hexChannels s).1 < 256) ∧
    (0 ≤ (hexChannels s).2.1 ∧ (hexChannels s).2.1 < 256) ∧
    (0 ≤ (hexChannels s).2.2 ∧ (hexChannels s).2.2 < 256) := by
  simp only [hexChannels]
  exact ⟨⟨jsAnd255_nonneg _, jsAnd255_lt _⟩, ⟨jsAnd255_nonneg _, jsAnd255_lt _⟩,
    ⟨jsAnd255_nonneg _, jsAnd255_lt _⟩⟩

lemma satPair_spec (s : String) :
    0 < (satPair s).2 ∧ 0 ≤ (satPair s).1 ∧ (satPair s).1 ≤ (satPair s).2 := by
  obtain ⟨⟨h1, _⟩, ⟨h2, _⟩, ⟨h3, _⟩⟩ := hexChannels_bounds s
  simp only [satPair]
  split
  · norm_num
  · rename_i h
    refine ⟨by omega, by omega, by omega⟩

lemma saturationOf_nonneg (s : String) : 0 ≤ saturationOf s := by
  obtain ⟨hd, hn, _⟩ := satPair_spec s
  exact div_nonneg (by exact_mod_cast hn) (by exact_mod_cast hd.le)

lemma saturationOf_le_one (s : String) : saturationOf s ≤ 1 := by
  obtain ⟨hd, _, hle⟩ := satPair_spec s
  rw [saturationOf, div_le_one (by exact_mod_cast hd)]
  exact_mod_cast hle

lemma satLt_iff {p q : Int × Int} (hp : 0 < p.2) (hq : 0 < q.2) :
    satLt p q = true ↔ (p.1 : ℚ) / (p.2 : ℚ) < (q.1 : ℚ) / (q.2 : ℚ) := by
  rw [satLt, decide_eq_true_eq,
    div_lt_div_iff₀ (by exact_mod_cast hp) (by exact_mod_cast hq)]
  constructor <;> intro h <;> exact_mod_cast h

/-- Invariant of `getMostVibrant`'s scan: from a state whose recorded
maximum is the fraction `m` (positive denominator), the fold either
leaves the state untouched because no saturation beats `m`, or returns
the first element of the remaining list whose saturation strictly
exceeds `m` and every other saturation. -/
lemma foldl_vibrant_spec :
    ∀ (l : List String) (m : Int × Int) (v : String), 0 < m.2 →
      ∀ M V, l.foldl vibrantStep (m, v) = (M, V) →
        0 < M.2 ∧
        (((M, V) = (m, v) ∧ ∀ x ∈ l, saturationOf x ≤ (m.1 : ℚ) / (m.2 : ℚ)) ∨
         (∃ pre post, l = pre ++ V :: post ∧ M = satPair V ∧
           (m.1 : ℚ) / (m.2 : ℚ) < saturationOf V ∧
           (∀ x ∈ pre, saturationOf x < saturationOf V) ∧
           (∀ x ∈ l, saturationOf x ≤ saturationOf V)))
  | [], m, v, hm, M, V, h => by
    simp only [List.foldl_nil, Prod.mk.injEq] at h
    obtain ⟨h1, h2⟩ := h
    subst h1; subst h2
    exact ⟨hm, Or.inl ⟨rfl, by simp⟩⟩
  | x :: xs, m, v, hm, M, V, h => by
    simp only [List.foldl_cons] at h
    have hx : 0 < (satPair x).2 := (satPair_spec x).1
    by_cases hc : satLt m (satPair x) = true
    · rw [show vibrantStep (m, v) x = (satPair x, x) by
        simp only [vibrantStep]; rw [if_pos hc]] at h
      have hlt : (m.1 : ℚ) / (m.2 : ℚ) < saturationOf x := (satLt_iff hm hx).mp hc
      obtain ⟨hM, hcase⟩ := foldl_vibrant_spec xs (satPair x) x hx M V h
      refine ⟨hM, Or.inr ?_⟩
      rcases hcase with ⟨hMV, hall⟩ | ⟨pre, post, heq, hMs, hlt2, hpre, hall⟩
      · obtain ⟨hM1, hV1⟩ := Prod.mk.injEq .. |>.mp hMV
        subst hM1; subst hV1
        refine ⟨[], xs, by simp, rfl, hlt, by simp, ?_⟩
        intro y hy
        rcases List.mem_cons.mp hy with rfl | hy
        · exact le_refl _
        · exact hall y hy
      · refine ⟨x :: pre, post, by simp [heq], hMs, lt_trans hlt hlt2, ?_, ?_⟩
        · intro y hy
          rcases List.mem_cons.mp hy with rfl | hy
          · exact hlt2
          · exact hpre y hy
        · intro y hy
          rcases List.mem_cons.mp hy with rfl | hy
          · exact le_of_lt hlt2
          · exact hall y hy
    · rw [show vibrantStep (m, v) x = (m, v) by
        simp only [vibrantStep]; rw [if_neg hc]] at h
      have hle : saturationOf x ≤ (m.1 : ℚ) / (m.2 : ℚ) := by
        have := (satLt_iff hm hx).not.mp hc
        exact not_lt.mp this
      obtain ⟨hM, hcase⟩ := foldl_vibrant_spec xs m v hm M V h
      refine ⟨hM, ?_⟩
      rcases hcase with ⟨hMV, hall⟩ | ⟨pre, post, heq, hMs, hlt2, hpre, hall⟩
      · refine Or.inl ⟨hMV, ?_⟩
        intro y hy
        rcases List.mem_cons.mp hy with rfl | hy
        · exact hle
        · exact hall y hy
      · refine Or.inr ⟨x :: pre, post, by simp [heq], hMs, hlt2, ?_, ?_⟩
        · intro y hy
          rcases List.mem_cons.mp hy with rfl | hy
          · exact lt_of_le_of_lt hle hlt2
          · exact hpre y hy
        · intro y hy
          rcases List.mem_cons.mp hy with rfl | hy
          · exact le_of_lt (lt_of_le_of_lt hle hlt2)
          · exact hall y hy

/-- `getMostVibrant` returns the first element achieving the maximal
saturation: everything strictly before it in the scan has strictly
smaller saturation, and nothing beats it. -/
lemma getMostVibrant_spec (l : List String) (h : l ≠ []) :
    ∃ pre post, l = pre ++ getMostVibrant l :: post ∧
      (∀ x ∈ pre, saturationOf x < saturationOf (getMostVibrant l)) ∧
      (∀ x ∈ l, saturationOf x ≤ saturationOf (getMostVibrant l)) := by
  obtain ⟨hd, tl, rfl⟩ := List.exists_cons_of_ne_nil h
  obtain ⟨M, V, hMV⟩ :
      ∃ M V, (hd :: tl).foldl vibrantStep ((0, 1), hd) = (M, V) :=
    ⟨_, _, Prod.mk.eta.symm⟩
  have hgv : getMostVibrant (hd :: tl) = V := by
    simp only [getMostVibrant, List.headD_cons]
    rw [hMV]
  obtain ⟨hM, hcase⟩ :=
    foldl_vibrant_spec (hd :: tl) (0, 1) hd (by norm_num) M V hMV
  rw [hgv]
  rcases hcase with ⟨hMV2, hall⟩ | ⟨pre, post, heq, _, _, hpre, hall⟩
  · obtain ⟨_, hV⟩ := Prod.mk.injEq .. |>.mp hMV2
    subst hV
    refine ⟨[], tl, by simp, by simp, ?_⟩
    intro y hy
    have h0 : saturationOf y ≤ 0 := by
      have := hall y hy
      norm_num at this
      exact this
    exact le_trans h0 (saturationOf_nonneg _)
  · exact ⟨pre, post, heq, hpre, hall⟩

lemma getMostVibrant_mem (l : List String) (h : l ≠ []) :
    getMostVibrant l ∈ l := by
  obtain ⟨pre, post, heq, -, -⟩ := getMostVibrant_spec l h
  have hmem : getMostVibrant l ∈ pre ++ getMostVibrant l :: post := by simp
  rw [← heq] at hmem
  exact hmem

/-! ### Palette derivation lemmas -/

lemma headD_mem (l : List String) (d : String) (h : l ≠ []) : l.headD d ∈ l := by
  cases l with
  | nil => exact absurd rfl h
  | cons x xs => simp

/-- Unfolds `derivePalette` past its length guard. -/
lemma derivePalette_eq {l : List (Int × Int × Int)} (h : 3 ≤ l.length) :
    derivePalette l = .ok
      { primary := (hexColorsOf l).headD ""
        secondary := jsOrString (hexColorsOf l)[1]?
          (adjustBrightness ((hexColorsOf l).headD "") 20)
        accent := getMostVibrant (hexColorsOf l)
        dark := adjustBrightness ((sortByLuminance (hexColorsOf l)).headD "") (-30)
        light := (sortByLuminance (hexColorsOf l)).getLastD "" } := by
  simp only [derivePalette]
  rw [if_neg (by omega)]

lemma mem_hexColorsOf {s : String} {l : List (Int × Int × Int)}
    (h : s ∈ hexColorsOf l) : ∃ t ∈ l, s = rgbToHex t.1 t.2.1 t.2.2 := by
  simp only [hexColorsOf, List.mem_map] at h
  obtain ⟨t, ht, rfl⟩ := h
  exact ⟨t, ht, rfl⟩

lemma hexColorsOf_ne_empty {l : List (Int × Int × Int)} (h : 3 ≤ l.length) :
    hexColorsOf l ≠ [] := by
  intro hc
  rw [hexColorsOf, List.map_eq_nil_iff] at hc
  subst hc
  simp at h

lemma mem_hexColorsOf_ne_empty {s : String} {l : List (Int × Int × Int)}
    (h : s ∈ hexColorsOf l) : s ≠ "" := by
  obtain ⟨t, -, rfl⟩ := mem_hexColorsOf h
  exact rgbToHex_ne_empty _ _ _

/-- The integer comparator used in `sortByLuminance` decides exactly the
order of `getLuminance` values. -/
lemma lumWeight_le_iff (a b : String) :
    lumWeight a ≤ lumWeight b ↔ getLuminance a ≤ getLuminance b := by
  simp only [lumWeight, getLuminance]
  rw [div_le_div_iff₀ (by norm_num : (0 : ℚ) < 255) (by norm_num : (0 : ℚ) < 255)]
  constructor <;> intro h
  · have h2 : ((299 * (hexChannels a).1 + 587 * (hexChannels a).2.1 +
        114 * (hexChannels a).2.2 : Int) : ℚ) ≤
        ((299 * (hexChannels b).1 + 587 * (hexChannels b).2.1 +
        114 * (hexChannels b).2.2 : Int) : ℚ) := by exact_mod_cast h
    push_cast at h2
    linarith
  · have h2 : ((299 * (hexChannels a).1 + 587 * (hexChannels a).2.1 +
        114 * (hexChannels a).2.2 : Int) : ℚ) ≤
        ((299 * (hexChannels b).1 + 587 * (hexChannels b).2.1 +
        114 * (hexChannels b).2.2 : Int) : ℚ) := by
      push_cast
      linarith
    exact_mod_cast h2

/-! ### Claims -/

/-- C1 (counterexample): `rgbToHex` performs no clamping, so the channel
value 256 produces the 8-character string `"#1000000"` rather than a
7-character clamped encoding. -/
theorem c1_toHex_no_clamp_counterexample :
    (rgbToHex 256 0 0).length = 8 ∧ rgbToHex 256 0 0 ≠ rgbToHex 255 0 0 := by
  decide

/-- C1 (amended): for channels already in [0, 255], `rgbToHex` produces
`#` followed by three 2-digit lowercase hex pairs — exactly 7
characters. -/
theorem c1_toHex_seven_chars (r g b : Int) (hr0 : 0 ≤ r) (hr1 : r ≤ 255)
    (hg0 : 0 ≤ g) (hg1 : g ≤ 255) (hb0 : 0 ≤ b) (hb1 : b ≤ 255) :
    (rgbToHex r g b).length = 7 ∧ isValidHexColor (rgbToHex r g b) = true :=
  ⟨rgbToHex_length hr0 hr1 hg0 hg1 hb0 hb1,
   rgbToHex_valid hr0 hr1 hg0 hg1 hb0 hb1⟩

/-- Witness for C1 (amended) at (32, 160, 0). -/
theorem c1_toHex_seven_chars_witness :
    (rgbToHex 32 160 0).length = 7 ∧ isValidHexColor (rgbToHex 32 160 0) = true :=
  c1_toHex_seven_chars 32 160 0 (by norm_num) (by norm_num) (by norm_num)
    (by norm_num) (by norm_num) (by norm_num)

/-- C2 (counterexample): on the spec's sample scenario the light role is
not `#a0a0a0`. -/
theorem c2_scenario_counterexample :
    derivePalette [(32, 32, 32), (160, 160, 160), (255, 0, 0), (0, 255, 170)] ≠
      .ok ⟨"#202020", "#a0a0a0", "#ff0000", "#000000", "#a0a0a0"⟩ := by
  decide

/-- C2 (amended): on samples [#202020, #a0a0a0, #ff0000, #00ffaa] the
derivation yields primary #202020, secondary #a0a0a0, accent #ff0000,
dark #000000, and light #00ffaa, because the ascending luminance order
is #202020, #ff0000, #a0a0a0, #00ffaa (lum(#00ffaa) = 663/1000 exceeds
lum(#a0a0a0) = 32/51). -/
theorem c2_scenario_amended :
    derivePalette [(32, 32, 32), (160, 160, 160), (255, 0, 0), (0, 255, 170)] =
      .ok ⟨"#202020", "#a0a0a0", "#ff0000", "#000000", "#00ffaa"⟩ ∧
    sortByLuminance
        (hexColorsOf [(32, 32, 32), (160, 160, 160), (255, 0, 0), (0, 255, 170)]) =
      ["#202020", "#ff0000", "#a0a0a0", "#00ffaa"] := by
  decide

/-- C3: derivation signals `insufficientSamples` exactly when the sample
list has fewer than 3 entries, and in that case no palette value is
produced. -/
theorem c3_insufficient_samples (l : List (Int × Int × Int)) :
    (derivePalette l = .error .insufficientSamples ↔ l.length < 3) ∧
    (l.length < 3 → ∀ p, derivePalette l ≠ .ok p) := by
  constructor
  · unfold derivePalette
    by_cases h : l.length < 3
    · simp [h]
    · simp [h]
  · intro hlt p
    unfold derivePalette
    simp [hlt]

/-- Witness for C3 on a 2-element sample list. -/
theorem c3_insufficient_samples_witness :
    derivePalette [(0, 0, 0), (1, 1, 1)] = .error .insufficientSamples ∧
    ∀ p, derivePalette [(0, 0, 0), (1, 1, 1)] ≠ .ok p :=
  ⟨(c3_insufficient_samples [(0, 0, 0), (1, 1, 1)]).1.mpr (by decide),
   (c3_insufficient_samples [(0, 0, 0), (1, 1, 1)]).2 (by decide)⟩

/-- C4: `getMostVibrant` returns an element of maximal saturation and
every element scanned before it has strictly smaller saturation, so
saturation ties keep the first-encountered (most dominant) element. -/
theorem c4_most_vibrant_first_max (l : List String) (h : l ≠ []) :
    ∃ pre post, l = pre ++ getMostVibrant l :: post ∧
      (∀ x ∈ pre, saturationOf x < saturationOf (getMostVibrant l)) ∧
      (∀ x ∈ l, saturationOf x ≤ saturationOf (getMostVibrant l)) :=
  getMostVibrant_spec l h

/-- Witness for C4 on a two-element list with a saturation tie. -/
theorem c4_most_vibrant_first_max_witness :
    ∃ pre post, ["#ff0000", "#00ffaa"] =
        pre ++ getMostVibrant ["#ff0000", "#00ffaa"] :: post ∧
      (∀ x ∈ pre, saturationOf x < saturationOf (getMostVibrant ["#ff0000", "#00ffaa"])) ∧
      (∀ x ∈ ["#ff0000", "#00ffaa"],
        saturationOf x ≤ saturationOf (getMostVibrant ["#ff0000", "#00ffaa"])) :=
  c4_most_vibrant_first_max ["#ff0000", "#00ffaa"] (by decide)

/-- C5: for every sample list of length at least 3 whose channels are in
[0, 255], derivation succeeds and every one of the five roles is a valid
7-character hex string. -/
theorem c5_total_coverage (l : List (Int × Int × Int)) (hlen : 3 ≤ l.length)
    (hrange : ∀ t ∈ l, 0 ≤ t.1 ∧ t.1 ≤ 255 ∧ 0 ≤ t.2.1 ∧ t.2.1 ≤ 255 ∧
      0 ≤ t.2.2 ∧ t.2.2 ≤ 255) :
    ∃ p, derivePalette l = .ok p ∧
      isValidHexColor p.primary = true ∧ isValidHexColor p.secondary = true ∧
      isValidHexColor p.accent = true ∧ isValidHexColor p.dark = true ∧
      isValidHexColor p.light = true := by
  have hmemv : ∀ s ∈ hexColorsOf l, isValidHexColor s = true := by
    intro s hs
    obtain ⟨t, ht, rfl⟩ := mem_hexColorsOf hs
    obtain ⟨h1, h2, h3, h4, h5, h6⟩ := hrange t ht
    exact rgbToHex_valid h1 h2 h3 h4 h5 h6
  have hne := hexColorsOf_ne_empty hlen
  have hsorted_ne : sortByLuminance (hexColorsOf l) ≠ [] := by
    intro hc
    apply hne
    have hlen0 := congrArg List.length hc
    rw [length_sortByLuminance] at hlen0
    exact List.eq_nil_of_length_eq_zero (by simpa using hlen0)
  have h1lt : 1 < (hexColorsOf l).length := by
    have he : (hexColorsOf l).length = l.length := by simp [hexColorsOf]
    omega
  refine ⟨_, derivePalette_eq hlen, ?_, ?_, ?_, ?_, ?_⟩
  · exact hmemv _ (headD_mem _ _ hne)
  · show isValidHexColor (jsOrString (hexColorsOf l)[1]?
      (adjustBrightness ((hexColorsOf l).headD "") 20)) = true
    have hget : (hexColorsOf l)[1]? = some ((hexColorsOf l)[1]) :=
      List.getElem?_eq_getElem h1lt
    have hmem1 : (hexColorsOf l)[1] ∈ hexColorsOf l := List.getElem_mem h1lt
    rw [hget]
    simp only [jsOrString]
    rw [if_neg (mem_hexColorsOf_ne_empty hmem1)]
    exact hmemv _ hmem1
  · exact hmemv _ (getMostVibrant_mem _ hne)
  · exact adjustBrightness_valid _ _
  · exact hmemv _ (mem_sortByLuminance.mp (getLastD_mem _ _ hsorted_ne))

/-- Witness for C5 on the four-sample scenario list. -/
theorem c5_total_coverage_witness :
    ∃ p, derivePalette [(32, 32, 32), (160, 160, 160), (255, 0, 0), (0, 255, 170)] =
        .ok p ∧
      isValidHexColor p.primary = true ∧ isValidHexColor p.secondary = true ∧
      isValidHexColor p.accent = true ∧ isValidHexColor p.dark = true ∧
      isValidHexColor p.light = true :=
  c5_total_coverage [(32, 32, 32), (160, 160, 160), (255, 0, 0), (0, 255, 170)]
    (by decide) (by decide)

/-- C6: encoding in-range channels with `rgbToHex` and parsing the hex
string back through the shared channel-extraction pattern recovers the
original triple exactly. -/
theorem c6_roundtrip (r g b : Nat) (hr : r ≤ 255) (hg : g ≤ 255) (hb : b ≤ 255) :
    hexChannels (rgbToHex (r : Int) (g : Int) (b : Int)) =
      ((r : Int), (g : Int), (b : Int)) :=
  hexChannels_rgbToHex r g b (by omega) (by omega) (by omega)

/-- Witness for C6 at (18, 52, 86). -/
theorem c6_roundtrip_witness :
    hexChannels (rgbToHex ((18 : Nat) : Int) ((52 : Nat) : Int) ((86 : Nat) : Int)) =
      (((18 : Nat) : Int), ((52 : Nat) : Int), ((86 : Nat) : Int)) :=
  c6_roundtrip 18 52 86 (by norm_num) (by norm_num) (by norm_num)

/-- C7: adjusting a canonical color by 0 percent returns the color
unchanged (the rounded amount is 0 and clamping in-range channels is the
identity). -/
theorem c7_adjust_zero_identity (r g b : Nat) (hr : r ≤ 255) (hg : g ≤ 255)
    (hb : b ≤ 255) :
    adjustBrightness (rgbToHex (r : Int) (g : Int) (b : Int)) 0 =
      rgbToHex (r : Int) (g : Int) (b : Int) :=
  adjustBrightness_zero r g b (by omega) (by omega) (by omega)

/-- Witness for C7 at #20a0ff. -/
theorem c7_adjust_zero_identity_witness :
    adjustBrightness (rgbToHex ((32 : Nat) : Int) ((160 : Nat) : Int) ((255 : Nat) : Int)) 0 =
      rgbToHex ((32 : Nat) : Int) ((160 : Nat) : Int) ((255 : Nat) : Int) :=
  c7_adjust_zero_identity 32 160 255 (by norm_num) (by norm_num) (by norm_num)

/-- C8: the saturation of any color lies in [0, 1]; gray #808080 has
saturation 0 and pure red #ff0000 has saturation 1. -/
theorem c8_saturation_bounds :
    (∀ s : String, 0 ≤ saturationOf s ∧ saturationOf s ≤ 1) ∧
    saturationOf "#808080" = 0 ∧ saturationOf "#ff0000" = 1 := by
  refine ⟨fun s => ⟨saturationOf_nonneg s, saturationOf_le_one s⟩, ?_, ?_⟩
  · rw [saturationOf, show satPair "#808080" = (0, 128) from by decide]
    norm_num
  · rw [saturationOf, show satPair "#ff0000" = (255, 255) from by decide]
    norm_num

/-- C9: whenever derivation succeeds, the secondary role is exactly the
second sample's hex string; the `||` fallback branch is never taken
because that string is present and non-empty. -/
theorem c9_secondary_from_index1 (l : List (Int × Int × Int)) (p : ColorPalette)
    (h : derivePalette l = .ok p) :
    ∃ s, (hexColorsOf l)[1]? = some s ∧ s ≠ "" ∧ p.secondary = s := by
  have hlen : 3 ≤ l.length := by
    by_contra hlt
    push_neg at hlt
    rw [derivePalette, if_pos (by omega)] at h
    exact Except.noConfusion h
  have h1lt : 1 < (hexColorsOf l).length := by
    have he : (hexColorsOf l).length = l.length := by simp [hexColorsOf]
    omega
  have hget : (hexColorsOf l)[1]? = some ((hexColorsOf l)[1]) :=
    List.getElem?_eq_getElem h1lt
  have hmem1 : (hexColorsOf l)[1] ∈ hexColorsOf l := List.getElem_mem h1lt
  have hne1 := mem_hexColorsOf_ne_empty hmem1
  refine ⟨(hexColorsOf l)[1], hget, hne1, ?_⟩
  rw [derivePalette_eq hlen] at h
  have hp := Except.ok.inj h
  subst hp
  show jsOrString (hexColorsOf l)[1]?
      (adjustBrightness ((hexColorsOf l).headD "") 20) = (hexColorsOf l)[1]
  rw [hget]
  simp only [jsOrString]
  rw [if_neg hne1]

/-- Witness for C9 on the four-sample scenario list. -/
theorem c9_secondary_from_index1_witness :
    ∃ s, (hexColorsOf [(32, 32, 32), (160, 160, 160), (255, 0, 0), (0, 255, 170)])[1]? =
        some s ∧ s ≠ "" ∧
      ColorPalette.secondary
        ⟨"#202020", "#a0a0a0", "#ff0000", "#000000", "#00ffaa"⟩ = s :=
  c9_secondary_from_index1
    [(32, 32, 32), (160, 160, 160), (255, 0, 0), (0, 255, 170)]
    ⟨"#202020", "#a0a0a0", "#ff0000", "#000000", "#00ffaa"⟩ (by decide)

/-- C10: for a canonical color input and any integer percent,
`adjustBrightness` clamps every shifted channel into [0, 255] before
re-encoding, so its output is always a canonical 7-character lowercase
hex string even though `rgbToHex` itself never clamps. -/
theorem c10_adjust_always_wellformed (r g b : Int) (_hr0 : 0 ≤ r)
    (_hr1 : r ≤ 255) (_hg0 : 0 ≤ g) (_hg1 : g ≤ 255) (_hb0 : 0 ≤ b)
    (_hb1 : b ≤ 255) (p : Int) :
    ∃ R G B : Int, 0 ≤ R ∧ R ≤ 255 ∧ 0 ≤ G ∧ G ≤ 255 ∧ 0 ≤ B ∧ B ≤ 255 ∧
      adjustBrightness (rgbToHex r g b) p = rgbToHex R G B ∧
      isValidHexColor (adjustBrightness (rgbToHex r g b) p) = true := by
  obtain ⟨R, G, B, h1, h2, h3, h4, h5, h6, he⟩ :=
    adjustBrightness_eq_rgbToHex (rgbToHex r g b) p
  exact ⟨R, G, B, h1, h2, h3, h4, h5, h6, he, adjustBrightness_valid _ _⟩

/-- Witness for C10 at #102030 with percent 1000 (far outside −100..100). -/
theorem c10_adjust_always_wellformed_witness :
    ∃ R G B : Int, 0 ≤ R ∧ R ≤ 255 ∧ 0 ≤ G ∧ G ≤ 255 ∧ 0 ≤ B ∧ B ≤ 255 ∧
      adjustBrightness (rgbToHex 16 32 48) 1000 = rgbToHex R G B ∧
      isValidHexColor (adjustBrightness (rgbToHex 16 32 48) 1000) = true :=
  c10_adjust_always_wellformed 16 32 48 (by norm_num) (by norm_num)
    (by norm_num) (by norm_num) (by norm_num) (by norm_num) 1000

end ColorExtractor
